import Mathlib

/-!
Verification of the user session-lifecycle manager of x-minecraft-launcher.

The development shallowly embeds the TypeScript sources:
  src/xmcl-runtime/lib/services/UserService.ts
  src/xmcl-runtime/lib/util/persistance.ts
  src/xmcl-runtime/lib/services/InstanceLogService.ts

JavaScript plain-object records (Record<string, T>) are embedded as
association lists in insertion order, which is the iteration order of
Object.values and Object.entries; a JavaScript record never holds two
entries with the same key.  Asynchronous provider calls are embedded by
passing the provider outcome (or the provider as a function) as an explicit
parameter; a rejected promise is an Except.error value.  The typed
embedding makes the runtime type guards requireString and requireObject
vacuous on well-typed inputs, so they are not represented.
-/

namespace XMCL

/-- Lookup obj[k] on a JavaScript record embedded as an association list:
the value of the first entry whose key matches. -/
def lookupKey : List (String × α) → String → Option α
  | [], _ => none
  | p :: m, k => if p.1 = k then some p.2 else lookupKey m k

/-- Assignment obj[k] = v on a JavaScript record: replaces the value of the
entry holding the key in place (keeping its position), otherwise appends a
new entry at the end, as JavaScript property creation does. -/
def setKey : List (String × α) → String → α → List (String × α)
  | [], k, v => [(k, v)]
  | p :: m, k, v => if p.1 = k then (k, v) :: m else p :: setKey m k v

/-- Deletion delete obj[k] on a JavaScript record. -/
def removeKey : List (String × α) → String → List (String × α)
  | [], _ => []
  | p :: m, k => if p.1 = k then removeKey m k else p :: removeKey m k

/-- The keys of a record, in insertion order. -/
def keysOf (m : List (String × α)) : List String :=
  m.map Prod.fst

/-! ## Data model

Embeds the UserSchema / UserState data shapes used by UserService.ts:
GameProfile (name and skin metadata, reduced to the fields the verified
code paths touch), UserProfile (an account) and the session state.  The
UserState mutation methods (userProfile, userSelect, userProfileRemove,
userGameProfileSelect) and the state.user getter live in the
@xmcl/runtime-api package, which is not under src/; they are modelled from
the spec as plain setters on the state document (section 3 and the mutation
list of section 6 of the spec).
-/

/-- One game profile of an account (a named, skin-bearing persona). -/
structure GameProfile where
  id : String
  name : String
deriving DecidableEq, Repr

/-- One locally known account (UserProfile in the source). -/
structure UserProfile where
  id : String
  authService : String
  profiles : List (String × GameProfile)
  selectedProfile : String
deriving DecidableEq, Repr

/-- The session state document: users record, selected user id and client
token (yggdrasilServices are not needed by the verified claims). -/
structure UserState where
  users : List (String × UserProfile)
  selectedUser : String
  clientToken : String
deriving DecidableEq, Repr

/-- Modelled from the spec: mutation userProfile of UserState
(@xmcl/runtime-api, not under src/) — inserts or replaces the account entry
under its own id. -/
def UserState.userProfile (s : UserState) (p : UserProfile) : UserState :=
  { s with users := setKey s.users p.id p }

/-- Modelled from the spec: mutation userSelect of UserState — sets the
selected account id. -/
def UserState.userSelect (s : UserState) (id : String) : UserState :=
  { s with selectedUser := id }

/-- Modelled from the spec: mutation userProfileRemove of UserState —
deletes the account entry under the given id. -/
def UserState.userProfileRemove (s : UserState) (id : String) : UserState :=
  { s with users := removeKey s.users id }

/-- One entry of the users record after userGameProfileSelect: the entry
stored under userId gets its selectedProfile field replaced. -/
def setProfileEntry (userId profileId : String) (pr : String × UserProfile) :
    String × UserProfile :=
  if pr.1 = userId then (pr.1, { pr.2 with selectedProfile := profileId }) else pr

/-- Modelled from the spec: mutation userGameProfileSelect of UserState —
sets the selectedProfile field of the account stored under userId. -/
def UserState.userGameProfileSelect (s : UserState) (userId profileId : String) : UserState :=
  { s with users := s.users.map (setProfileEntry userId profileId) }

/-- Modelled from the spec: the state.user getter — the account stored
under the selected id, if any. -/
def UserState.user (s : UserState) : Option UserProfile :=
  lookupKey s.users s.selectedUser

/-- Errors surfaced by the embedded operations.  aborted is the
cancellation-kind error a provider fails with when its AbortSignal fires;
typeError is the JavaScript TypeError raised by dereferencing undefined;
provider covers remote/credential failures. -/
inductive JsError where
  | aborted
  | typeError (msg : String)
  | provider (msg : String)
deriving DecidableEq, Repr

/-- The AbortController slots of UserService (loginController,
refreshController, setSkinController).  none means no controller is
assigned; some b means a controller is assigned with aborted flag b. -/
structure Controllers where
  loginController : Option Bool
  refreshController : Option Bool
  setSkinController : Option Bool
deriving DecidableEq, Repr

/-- The full mutable state of UserService: the reactive session state plus
the three controller slots. -/
structure FullState where
  state : UserState
  ctrl : Controllers
deriving DecidableEq, Repr

/-! ## Public operations of UserService.ts

Each operation is embedded as a pure function of the pre-state and of the
outcome of the (single) provider call it may perform; the returned triple
or pair carries the operation result, the post-state and, where a claim
needs it, the provider invocation that was issued (none when the provider
was never called).
-/

/-- UserService.login (UserService.ts lines 140-152): assigns a fresh login
controller, awaits the account system login, clears the controller in the
finally handler, and on success commits userProfile and userSelect.  The
provider outcome is the res parameter. -/
def login (f : FullState) (res : Except JsError UserProfile) :
    Except JsError UserProfile × FullState :=
  let ctrl2 := { f.ctrl with loginController := none }
  match res with
  | .error e => (.error e, { f with ctrl := ctrl2 })
  | .ok p =>
      (.ok p, { state := (f.state.userProfile p).userSelect p.id, ctrl := ctrl2 })

/-- UserService.refreshUser (UserService.ts lines 203-220): skips when no
account is stored under the selected id, otherwise refreshes the selected
account through its account system and commits the result with
userProfile.  The third component records which account the provider was
invoked on (none when no provider call happened). -/
def refreshUser (f : FullState) (provider : UserProfile → Except JsError UserProfile) :
    Except JsError Unit × FullState × Option UserProfile :=
  match f.state.user with
  | none => (.ok (), f, none)
  | some u =>
      let ctrl2 := { f.ctrl with refreshController := none }
      match provider u with
      | .error e => (.error e, { f with ctrl := ctrl2 }, some u)
      | .ok nu => (.ok (), { state := f.state.userProfile nu, ctrl := ctrl2 }, some u)

/-- UserService.selectUser (UserService.ts lines 225-236): returns at once
when the id is already selected, otherwise commits userSelect and performs
a full refreshUser before returning. -/
def selectUser (f : FullState) (userId : String)
    (provider : UserProfile → Except JsError UserProfile) :
    Except JsError Unit × FullState × Option UserProfile :=
  if userId = f.state.selectedUser then (.ok (), f, none)
  else refreshUser { f with state := f.state.userSelect userId } provider

/-- UserService.selectGameProfile (UserService.ts lines 238-249): warns and
returns when no account is stored under the selected id, otherwise commits
userGameProfileSelect for the selected user and the given profile id. -/
def selectGameProfile (f : FullState) (profileId : String) : FullState :=
  match f.state.user with
  | none => f
  | some _ =>
      { f with state := f.state.userGameProfileSelect f.state.selectedUser profileId }

/-- UserService.removeUserProfile (UserService.ts lines 251-265): when the
removed id is the selected one, searches Object.values(users) in insertion
order for the first account with a truthy (non-empty) selectedProfile —
the search includes the account being removed — and selects it when found;
then deletes the account entry.  The selection is never set to the empty
string. -/
def removeUserProfile (s : UserState) (userId : String) : UserState :=
  let s1 :=
    if s.selectedUser = userId then
      match (s.users.map Prod.snd).find? (fun u => u.selectedProfile ≠ "") with
      | none => s
      | some u => s.userSelect u.id
    else s
  s1.userProfileRemove userId

/-- The UploadSkinOptions argument of uploadSkin.  Absent optional fields
are none; a skin whose slim field is missing or not a boolean is embedded
with slim = none. -/
structure SkinPayload where
  url : String
  slim : Option Bool
deriving DecidableEq, Repr

structure UploadSkinOptions where
  userId : Option String
  gameProfileId : Option String
  skin : Option SkinPayload
deriving DecidableEq, Repr

/-- The exact argument tuple UserService.uploadSkin passes to
sys.setSkin(user, gameProfile, options, signal): the resolved user, the
resolved game profile and the original options object (whose skin field
has been normalized in place). -/
structure SetSkinCall where
  user : UserProfile
  gameProfile : GameProfile
  options : UploadSkinOptions
deriving DecidableEq, Repr

/-- The profile key resolved by uploadSkin: gameProfileId ||
user.selectedProfile, where the JavaScript || treats both an absent and an
empty gameProfileId as falsy. -/
def resolveProfileKey (o : UploadSkinOptions) (user : UserProfile) : String :=
  match o.gameProfileId with
  | none => user.selectedProfile
  | some g => if g = "" then user.selectedProfile else g

/-- The in-place normalization of the skin payload performed by uploadSkin:
a missing or non-boolean slim flag on a present skin is set to false in place. -/
def normalizeSkin (o : UploadSkinOptions) : UploadSkinOptions :=
  match o.skin with
  | none => o
  | some sk => { o with skin := some { sk with slim := some (sk.slim.getD false) } }

/-- UserService.uploadSkin (UserService.ts lines 162-187): resolves userId
(defaulting to the selected id), dereferences the users record — a missing
user raises a TypeError at user.profiles before any provider call or state
change — resolves the game profile under gameProfileId || selectedProfile
(a missing profile likewise raises a TypeError, at the log template),
normalizes the skin payload, invokes sys.setSkin with the original options
and commits the returned profile with userProfile.  The provider outcome is
a function of the SetSkinCall; the third component records the issued
provider invocation. -/
def uploadSkin (f : FullState) (o : UploadSkinOptions)
    (provider : SetSkinCall → Except JsError UserProfile) :
    Except JsError Unit × FullState × Option SetSkinCall :=
  let userId := o.userId.getD f.state.selectedUser
  match lookupKey f.state.users userId with
  | none => (.error (.typeError "Cannot read properties of undefined (reading profiles)"), f, none)
  | some user =>
      match lookupKey user.profiles (resolveProfileKey o user) with
      | none =>
          (.error (.typeError "Cannot read properties of undefined (reading name)"), f, none)
      | some gp =>
          let o2 := normalizeSkin o
          let call : SetSkinCall := { user := user, gameProfile := gp, options := o2 }
          let ctrl2 := { f.ctrl with setSkinController := none }
          match provider call with
          | .error e => (.error e, { f with ctrl := ctrl2 }, some call)
          | .ok data => (.ok (), { state := f.state.userProfile data, ctrl := ctrl2 }, some call)

/-- UserService.abortLogin (UserService.ts lines 278-280):
this.loginController?.abort() — signals the login controller when one is
assigned, otherwise does nothing. -/
def abortLogin (f : FullState) : FullState :=
  match f.ctrl.loginController with
  | none => f
  | some _ => { f with ctrl := { f.ctrl with loginController := some true } }

/-- UserService.abortRefresh (UserService.ts lines 282-284):
this.refreshController?.abort(). -/
def abortRefresh (f : FullState) : FullState :=
  match f.ctrl.refreshController with
  | none => f
  | some _ => { f with ctrl := { f.ctrl with refreshController := some true } }

/-- The public method surface of the UserService class, transcribed from
the class body of UserService.ts in declaration order. -/
def userServiceMethods : List String :=
  ["addYggdrasilAccountSystem", "removeYggdrasilAccountSystem", "login",
   "setUserProfile", "registerAccountSystem", "uploadSkin", "saveSkin",
   "refreshUser", "selectUser", "selectGameProfile", "removeUserProfile",
   "getOfficialUserProfile", "abortLogin", "abortRefresh", "getAccountSystem"]

/-! ## Operation list and reachability for the selection invariant

A public operation together with the outcome of the provider call it may
perform.  applyOp runs the embedded operation and keeps the post-state;
okOp collects the side conditions under which the operation preserves the
selection invariant.
-/

/-- Well-formedness of one account: selectedProfile is empty or a key of
its profiles record. -/
def wellFormedUser (u : UserProfile) : Prop :=
  u.selectedProfile = "" ∨ (lookupKey u.profiles u.selectedProfile).isSome

/-- The selection invariant exactly as the spec states it: selectedUser.id
is empty or a key of users, and every stored account is well formed. -/
def SelInv (s : UserState) : Prop :=
  (s.selectedUser = "" ∨ (lookupKey s.users s.selectedUser).isSome) ∧
  ∀ pr ∈ s.users, wellFormedUser pr.2

/-- A well-formed state: unique account keys (a JavaScript record cannot
hold duplicate keys) together with the selection invariant. -/
def StateWF (s : UserState) : Prop :=
  (keysOf s.users).Nodup ∧ SelInv s

instance : DecidablePred wellFormedUser := fun u => by
  unfold wellFormedUser; infer_instance

instance (s : UserState) : Decidable (SelInv s) := by
  unfold SelInv; infer_instance

instance (s : UserState) : Decidable (StateWF s) := by
  unfold StateWF; infer_instance

/-- One public operation of UserService together with the outcome of the
provider call it may perform. -/
inductive UserOp where
  | login (res : Except JsError UserProfile)
  | refreshUser (provider : UserProfile → Except JsError UserProfile)
  | selectUser (id : String) (provider : UserProfile → Except JsError UserProfile)
  | selectGameProfile (profileId : String)
  | removeUserProfile (id : String)
  | uploadSkin (o : UploadSkinOptions) (provider : SetSkinCall → Except JsError UserProfile)

/-- The state reached by one public operation. -/
def applyOp (f : FullState) : UserOp → FullState
  | .login res => (login f res).2
  | .refreshUser pr => (refreshUser f pr).2.1
  | .selectUser id pr => (selectUser f id pr).2.1
  | .selectGameProfile pid => selectGameProfile f pid
  | .removeUserProfile id => { f with state := removeUserProfile f.state id }
  | .uploadSkin o pr => (uploadSkin f o pr).2.1

/-- A provider outcome commits only well-formed accounts. -/
def okRes : Except JsError UserProfile → Prop
  | .error _ => True
  | .ok p => wellFormedUser p

/-- A provider function commits only well-formed accounts. -/
def okProvider (pr : UserProfile → Except JsError UserProfile) : Prop :=
  ∀ u, okRes (pr u)

/-- Side conditions under which one operation preserves the selection
invariant; the counterexample shows they are not vacuous. -/
def okOp (f : FullState) : UserOp → Prop
  | .login res => okRes res
  | .refreshUser pr => okProvider pr
  | .selectUser id pr =>
      (id = f.state.selectedUser ∨ (lookupKey f.state.users id).isSome) ∧ okProvider pr
  | .selectGameProfile pid =>
      ∀ u, f.state.user = some u → (lookupKey u.profiles pid).isSome
  | .removeUserProfile id =>
      f.state.selectedUser = id →
        match (f.state.users.map Prod.snd).find? (fun u => u.selectedProfile ≠ "") with
        | none => False
        | some u => u.id ≠ id ∧ (lookupKey f.state.users u.id).isSome
  | .uploadSkin _ pr => ∀ c, okRes (pr c)

/-- Run a sequence of public operations. -/
def runOps (f : FullState) : List UserOp → FullState
  | [] => f
  | o :: os => runOps (applyOp f o) os

/-- All operations along a trace satisfy their side conditions. -/
def AllOk (f : FullState) : List UserOp → Prop
  | [] => True
  | o :: os => okOp f o ∧ AllOk (applyOp f o) os

/-! ## Mutual exclusion of login (spec section 4.3 / 8)

Modelled from the spec: the login-keyed Lock decorator is implemented in
Service.ts, which is not under src/; section 4.3 of the spec specifies it
as per-key serialization.  Two logically concurrent login calls are two
tasks scheduled cooperatively.  JavaScript runs continuations between
awaits synchronously, so each login call is two atomic steps: acquiring
the lock together with starting the provider call (the code between the
lock grant and the await of system.login has no suspension point), and the
provider call returning together with the userProfile / userSelect
mutations and the lock release (the code after the await up to the
decorator release likewise has no suspension point).  A task is calling
exactly while its provider login invocation is in flight; applied records
the order in which the Account mutations of completed calls were applied
to the session state. -/
inductive TaskPhase where
  | idle
  | calling
  | done
deriving DecidableEq, Repr

structure LoginSys where
  lockHeld : Option (Fin 2)
  phase0 : TaskPhase
  phase1 : TaskPhase
  applied : List (Fin 2)
deriving DecidableEq, Repr

def getPhase (s : LoginSys) (i : Fin 2) : TaskPhase :=
  if i = 0 then s.phase0 else s.phase1

def setPhase (s : LoginSys) (i : Fin 2) (ph : TaskPhase) : LoginSys :=
  if i = 0 then { s with phase0 := ph } else { s with phase1 := ph }

/-- The state after task i acquires the login lock and issues its provider
login call. -/
def acquireState (s : LoginSys) (i : Fin 2) : LoginSys :=
  { setPhase s i .calling with lockHeld := some i }

/-- The state after the provider call of task i resolves, its userProfile
and userSelect mutations are applied and the lock is released. -/
def completeState (s : LoginSys) (i : Fin 2) : LoginSys :=
  { setPhase s i .done with lockHeld := none, applied := s.applied ++ [i] }

/-- The interleaving semantics of two concurrent login calls under the
login lock. -/
inductive LoginStep : LoginSys → LoginSys → Prop where
  | acquire (s : LoginSys) (i : Fin 2) :
      s.lockHeld = none → getPhase s i = .idle →
      LoginStep s (acquireState s i)
  | complete (s : LoginSys) (i : Fin 2) :
      s.lockHeld = some i → getPhase s i = .calling →
      LoginStep s (completeState s i)

/-- Both login calls issued, neither started. -/
def loginInit : LoginSys :=
  { lockHeld := none, phase0 := .idle, phase1 := .idle, applied := [] }

def LoginReachable (s : LoginSys) : Prop :=
  Relation.ReflTransGen LoginStep loginInit s

/-- The inductive invariant of the login lock system. -/
def LoginInv (s : LoginSys) : Prop :=
  (∀ i : Fin 2, getPhase s i = .calling → s.lockHeld = some i) ∧
  (∀ i : Fin 2, getPhase s i = .done → i ∈ s.applied)

/-! ## Schema-validated file store (persistance.ts) -/

/-- The file system as a record from paths to raw file contents.  copyFile
of an existing source either succeeds or fails for an environmental
reason; the copyOk oracle decides which, so a legacy path can be copied
exactly when it exists and its copy is not externally failed. -/
def FsCopyable (fs : List (String × String)) (copyOk : String → Bool) (p : String) : Prop :=
  (lookupKey fs p).isSome ∧ copyOk p = true

instance (fs : List (String × String)) (copyOk : String → Bool) (p : String) :
    Decidable (FsCopyable fs copyOk p) := by
  unfold FsCopyable; infer_instance

/-- The legacy-migration loop of createSafeFile.read (persistance.ts lines
24-32): try to copy each legacy path to the primary path in order, break
on the first success, swallow failures. -/
def migrateLoop (fs : List (String × String)) (path : String)
    (copyOk : String → Bool) : List String → List (String × String)
  | [] => fs
  | p :: ps =>
      match lookupKey fs p with
      | some content =>
          if copyOk p then setKey fs path content else migrateLoop fs path copyOk ps
      | none => migrateLoop fs path copyOk ps

/-- The file system after the migration step of createSafeFile.read: the
loop runs only when the primary path is missing. -/
def safeFileReadFs (fs : List (String × String)) (path : String)
    (legacyPaths : List String) (copyOk : String → Bool) : List (String × String) :=
  if (lookupKey fs path).isSome then fs
  else migrateLoop fs path copyOk legacyPaths

/-- createSafeFile.read (persistance.ts lines 23-34): when the primary path
is missing run the migration loop, then read the primary path with a
missing file replaced by the empty buffer, and deserialize.  The
SafeJsonSerializer deserialize is total (tolerant decode), embedded as the
deserialize parameter.  Returns the decoded value and the file system
after the read. -/
def safeFileRead {T : Type} (fs : List (String × String)) (path : String)
    (legacyPaths : List String) (copyOk : String → Bool)
    (deserialize : String → T) : T × List (String × String) :=
  (deserialize ((lookupKey (safeFileReadFs fs path legacyPaths copyOk) path).getD ""),
   safeFileReadFs fs path legacyPaths copyOk)

/-! ## Instance log service (InstanceLogService.ts) -/

/-- The effectful collaborators of InstanceLogService, embedded as total
functions returning Except outcomes: fs readFile, gunzip, the encoding
worker guess and decode. -/
structure LogIO where
  readFile : String → Except JsError String
  gunzip : String → Except JsError String
  guessEncodingByBuffer : String → Except JsError (Option String)
  decode : String → String → Except JsError String

def UTF8 : String := "utf-8"

/-- Shared read step of both content getters: read the file, then gunzip
when the requested name ends in .gz. -/
def readLogBuffer (io : LogIO) (path : String) (gz : Bool) : Except JsError String :=
  match io.readFile path with
  | .error e => .error e
  | .ok buf => if gz then io.gunzip buf else .ok buf

/-- The expression this.encoder.guessEncodingByBuffer(buf).catch(e =>
undefined) followed by encoding || UTF8: a failed or empty or missing
guess falls back to UTF8. -/
def resolveEncoding (io : LogIO) (buf : String) : String :=
  match io.guessEncodingByBuffer buf with
  | .error _ => UTF8
  | .ok none => UTF8
  | .ok (some e) => if e = "" then UTF8 else e

/-- InstanceLogService.getLogContent (InstanceLogService.ts lines 50-65):
the whole body is wrapped in try/catch and any failure is logged and
turned into the empty string. -/
def getLogContent (io : LogIO) (root name : String) : String :=
  let attempt : Except JsError String :=
    match readLogBuffer io (root ++ "/logs/" ++ name) (name.endsWith ".gz") with
    | .error e => .error e
    | .ok buf => io.decode buf (resolveEncoding io buf)
  match attempt with
  | .ok s => s
  | .error _ => ""

/-- InstanceLogService.getCrashReportContent (InstanceLogService.ts lines
91-106): no try/catch — read and gunzip and decode failures propagate to
the caller; only the encoding guess is caught.  isAbsolute embeds
path.isAbsolute. -/
def getCrashReportContent (io : LogIO) (isAbsolute : String → Bool)
    (root name : String) : Except JsError String :=
  let filePath := if isAbsolute name then name else root ++ "/crash-reports/" ++ name
  match readLogBuffer io filePath.trim (name.endsWith ".gz") with
  | .error e => .error e
  | .ok buf => io.decode buf (resolveEncoding io buf)

/-! ## Concrete fixtures for witnesses and counterexamples -/

/-- The empty service state at process start. -/
def initFullState : FullState :=
  { state := { users := [], selectedUser := "", clientToken := "" },
    ctrl := { loginController := none, refreshController := none, setSkinController := none } }

/-- A well-formed demonstration account. -/
def demoWFUser : UserProfile :=
  { id := "W", authService := "mojang",
    profiles := [("G", { id := "G", name := "Witness" })], selectedProfile := "G" }

/-- An account with no game profile yet (empty selectedProfile). -/
def cexLoginUser : UserProfile :=
  { id := "A", authService := "mojang", profiles := [], selectedProfile := "" }

def wUA : UserProfile :=
  { id := "A", authService := "mojang", profiles := [], selectedProfile := "" }

def wUB : UserProfile :=
  { id := "B", authService := "mojang",
    profiles := [("g", { id := "g", name := "Bee" })], selectedProfile := "g" }

/-- Two accounts, A selected, B with a non-empty selectedProfile. -/
def wC2State : UserState :=
  { users := [("A", wUA), ("B", wUB)], selectedUser := "A", clientToken := "" }

def cexUB : UserProfile :=
  { id := "B", authService := "mojang", profiles := [], selectedProfile := "" }

/-- Two accounts, A selected, both with empty selectedProfile. -/
def cexC2State : UserState :=
  { users := [("A", wUA), ("B", cexUB)], selectedUser := "A", clientToken := "" }

/-- A state with one account X whose selected profile is P. -/
def c7User : UserProfile :=
  { id := "X", authService := "mojang",
    profiles := [("P", { id := "P", name := "Steve" })], selectedProfile := "P" }

def c7State : FullState :=
  { state := { users := [("X", c7User)], selectedUser := "X", clientToken := "" },
    ctrl := { loginController := none, refreshController := none, setSkinController := none } }

def c7OptsEmpty : UploadSkinOptions :=
  { userId := none, gameProfileId := none, skin := none }

def c7OptsExplicit : UploadSkinOptions :=
  { userId := some "X", gameProfileId := some "P", skin := none }

/-- An account system whose setSkin result depends on the userId field of
the forwarded options object. -/
def c7Provider : SetSkinCall → Except JsError UserProfile :=
  fun c => match c.options.userId with
    | none => .ok c7User
    | some _ => .ok { c7User with authService := "observed-explicit-options" }

/-- A provider that ignores its argument entirely. -/
def constProvider : SetSkinCall → Except JsError UserProfile :=
  fun _ => .ok c7User

/-- Like c7State but with no account selected yet. -/
def c6State : FullState :=
  { state := { users := [("X", c7User)], selectedUser := "", clientToken := "" },
    ctrl := { loginController := none, refreshController := none, setSkinController := none } }

/-- A state with the lock free and task 0 mid-provider-call, one acquire
step from loginInit. -/
def loginMid : LoginSys :=
  { lockHeld := some 0, phase0 := .calling, phase1 := .idle, applied := [] }

/-- A skin payload with a missing slim flag. -/
def wSkinNoSlim : SkinPayload := { url := "http://skin", slim := none }

/-- A log IO world whose readFile always fails. -/
def failingReadIO : LogIO :=
  { readFile := fun _ => .error (.provider "ENOENT"),
    gunzip := fun b => .ok b,
    guessEncodingByBuffer := fun _ => .ok (some UTF8),
    decode := fun b _ => .ok b }

/-! ## Record lemmas -/

theorem lookupKey_setKey_self (m : List (String × α)) (k : String) (v : α) :
    lookupKey (setKey m k v) k = some v := by
  induction m with
  | nil => simp [setKey, lookupKey]
  | cons p m ih =>
    by_cases hp : p.1 = k
    · simp [setKey, lookupKey, hp]
    · simp [setKey, lookupKey, hp, ih]

theorem lookupKey_setKey_ne (m : List (String × α)) (k k2 : String) (v : α)
    (h : k2 ≠ k) : lookupKey (setKey m k v) k2 = lookupKey m k2 := by
  have h1 : ¬ (k = k2) := fun hk => h hk.symm
  induction m with
  | nil => simp [setKey, lookupKey, h1]
  | cons p m ih =>
    by_cases hp : p.1 = k
    · have hp2 : ¬ (p.1 = k2) := by rw [hp]; exact h1
      simp only [setKey, if_pos hp, lookupKey, if_neg h1, if_neg hp2]
    · simp only [setKey, if_neg hp, lookupKey]
      by_cases hp2 : p.1 = k2
      · simp [hp2]
      · simp [hp2, ih]

theorem lookupKey_setKey_isSome (m : List (String × α)) (k k2 : String) (v : α)
    (h : (lookupKey m k2).isSome) : (lookupKey (setKey m k v) k2).isSome := by
  by_cases hk : k2 = k
  · subst hk; simp [lookupKey_setKey_self]
  · rwa [lookupKey_setKey_ne m k k2 v hk]

theorem mem_setKey (m : List (String × α)) (k : String) (v : α)
    (q : String × α) (hq : q ∈ setKey m k v) : q = (k, v) ∨ q ∈ m := by
  induction m with
  | nil => simpa [setKey] using hq
  | cons p m ih =>
    by_cases hp : p.1 = k
    · simp only [setKey, if_pos hp] at hq
      rcases List.mem_cons.1 hq with h | h
      · exact Or.inl h
      · exact Or.inr (List.mem_cons_of_mem _ h)
    · simp only [setKey, if_neg hp] at hq
      rcases List.mem_cons.1 hq with h | h
      · exact Or.inr (h ▸ List.mem_cons_self _ _)
      · rcases ih h with h2 | h2
        · exact Or.inl h2
        · exact Or.inr (List.mem_cons_of_mem _ h2)

theorem lookupKey_removeKey_ne (m : List (String × α)) (k k2 : String)
    (h : k2 ≠ k) : lookupKey (removeKey m k) k2 = lookupKey m k2 := by
  induction m with
  | nil => rfl
  | cons p m ih =>
    by_cases hp : p.1 = k
    · have hp2 : ¬ (p.1 = k2) := by rw [hp]; exact fun hk => h hk.symm
      simp only [removeKey, if_pos hp, lookupKey, if_neg hp2]
      exact ih
    · simp only [removeKey, if_neg hp, lookupKey]
      by_cases hp2 : p.1 = k2
      · simp [hp2]
      · simp [hp2, ih]

theorem mem_removeKey (m : List (String × α)) (k : String)
    (q : String × α) (hq : q ∈ removeKey m k) : q ∈ m := by
  induction m with
  | nil => simp [removeKey] at hq
  | cons p m ih =>
    by_cases hp : p.1 = k
    · simp only [removeKey, if_pos hp] at hq
      exact List.mem_cons_of_mem _ (ih hq)
    · simp only [removeKey, if_neg hp] at hq
      rcases List.mem_cons.1 hq with h2 | h2
      · exact h2 ▸ List.mem_cons_self _ _
      · exact List.mem_cons_of_mem _ (ih h2)

theorem keysOf_setKey (m : List (String × α)) (k : String) (v : α)
    (h : (lookupKey m k).isSome) : keysOf (setKey m k v) = keysOf m := by
  induction m with
  | nil => simp [lookupKey] at h
  | cons p m ih =>
    by_cases hp : p.1 = k
    · simp [setKey, keysOf, hp]
    · simp only [lookupKey, if_neg hp] at h
      simp only [setKey, if_neg hp, keysOf, List.map_cons, List.cons.injEq, true_and]
      exact ih h

theorem keysOf_setKey_not_mem (m : List (String × α)) (k : String) (v : α)
    (h : lookupKey m k = none) : keysOf (setKey m k v) = keysOf m ++ [k] := by
  induction m with
  | nil => simp [setKey, keysOf]
  | cons p m ih =>
    by_cases hp : p.1 = k
    · simp [lookupKey, hp] at h
    · simp only [lookupKey, if_neg hp] at h
      simp only [setKey, if_neg hp, keysOf, List.map_cons, List.cons_append,
        List.cons.injEq, true_and]
      exact ih h

theorem not_mem_keysOf_of_lookup_none (m : List (String × α)) (k : String)
    (h : lookupKey m k = none) : k ∉ keysOf m := by
  induction m with
  | nil => simp [keysOf]
  | cons p m ih =>
    intro hmem
    by_cases hp : p.1 = k
    · simp [lookupKey, hp] at h
    · simp only [lookupKey, if_neg hp] at h
      rcases List.mem_cons.1 hmem with h2 | h2
      · exact hp h2.symm
      · exact ih h h2

theorem nodup_keysOf_setKey (m : List (String × α)) (k : String) (v : α)
    (h : (keysOf m).Nodup) : (keysOf (setKey m k v)).Nodup := by
  by_cases hf : (lookupKey m k).isSome
  · rwa [keysOf_setKey m k v hf]
  · have hnone : lookupKey m k = none := Option.not_isSome_iff_eq_none.1 hf
    rw [keysOf_setKey_not_mem m k v hnone]
    have hk := not_mem_keysOf_of_lookup_none m k hnone
    simpa [List.nodup_append] using ⟨h, hk⟩

/-- Helper: the keys of the record after a deletion form a subset of the
keys before it. -/
theorem keysOf_removeKey_subset (m : List (String × α)) (k : String) :
    keysOf (removeKey m k) ⊆ keysOf m := by
  intro x hx
  rcases List.mem_map.1 hx with ⟨q, hq, rfl⟩
  exact List.mem_map_of_mem _ (mem_removeKey m k q hq)

theorem nodup_keysOf_removeKey (m : List (String × α)) (k : String)
    (h : (keysOf m).Nodup) : (keysOf (removeKey m k)).Nodup := by
  induction m with
  | nil => simp [removeKey, keysOf]
  | cons p m ih =>
    simp only [keysOf, List.map_cons, List.nodup_cons] at h
    by_cases hp : p.1 = k
    · simp only [removeKey, if_pos hp]
      exact ih h.2
    · simp only [removeKey, if_neg hp, keysOf, List.map_cons, List.nodup_cons]
      exact ⟨fun hmem => h.1 (keysOf_removeKey_subset m k hmem), ih h.2⟩

/-- With unique keys, every entry of the record is exactly what lookup of
its key returns. -/
theorem lookup_of_mem_of_nodup (m : List (String × α))
    (h : (keysOf m).Nodup) (q : String × α) (hq : q ∈ m) :
    lookupKey m q.1 = some q.2 := by
  induction m with
  | nil => simp at hq
  | cons p m ih =>
    simp only [keysOf, List.map_cons, List.nodup_cons] at h
    rcases List.mem_cons.1 hq with h2 | h2
    · subst h2
      simp [lookupKey]
    · simp only [lookupKey]
      by_cases hp : p.1 = q.1
      · exact absurd (hp ▸ List.mem_map_of_mem Prod.fst h2) h.1
      · rw [if_neg hp]
        exact ih h.2 h2

/-! ## Preservation of the selection invariant -/

theorem selInv_users_userProfile (s : UserState) (p : UserProfile)
    (h2 : ∀ pr ∈ s.users, wellFormedUser pr.2) (hp : wellFormedUser p) :
    ∀ pr ∈ (s.userProfile p).users, wellFormedUser pr.2 := by
  intro pr hpr
  simp only [UserState.userProfile] at hpr
  rcases mem_setKey s.users p.id p pr hpr with h | h
  · rw [h]; exact hp
  · exact h2 pr h

theorem stateWF_userProfile (s : UserState) (p : UserProfile)
    (h : StateWF s) (hp : wellFormedUser p) : StateWF (s.userProfile p) := by
  obtain ⟨hnd, hsel, hwf⟩ := h
  refine ⟨nodup_keysOf_setKey _ _ _ hnd, ?_, selInv_users_userProfile s p hwf hp⟩
  rcases hsel with h1 | h1
  · exact Or.inl h1
  · exact Or.inr (lookupKey_setKey_isSome _ _ _ _ h1)

theorem stateWF_login (f : FullState) (res : Except JsError UserProfile)
    (h : StateWF f.state) (hres : okRes res) : StateWF (login f res).2.state := by
  rcases res with e | p
  · simpa [login] using h
  · have h1 := stateWF_userProfile f.state p h hres
    obtain ⟨hnd, hsel, hwf⟩ := h1
    refine ⟨hnd, Or.inr ?_, hwf⟩
    simp [login, UserState.userSelect, UserState.userProfile, lookupKey_setKey_self]

theorem stateWF_refreshUser (f : FullState)
    (pr : UserProfile → Except JsError UserProfile)
    (h : StateWF f.state) (hpr : okProvider pr) :
    StateWF (refreshUser f pr).2.1.state := by
  rcases hu : f.state.user with _ | u
  · simpa [refreshUser, hu] using h
  · rcases hru : pr u with e | nu
    · simpa [refreshUser, hu, hru] using h
    · have hwf : wellFormedUser nu := by have h2 := hpr u; rwa [hru] at h2
      simpa [refreshUser, hu, hru] using stateWF_userProfile f.state nu h hwf

theorem stateWF_selectUser (f : FullState) (id : String)
    (pr : UserProfile → Except JsError UserProfile) (h : StateWF f.state)
    (hid : id = f.state.selectedUser ∨ (lookupKey f.state.users id).isSome)
    (hpr : okProvider pr) : StateWF (selectUser f id pr).2.1.state := by
  by_cases heq : id = f.state.selectedUser
  · simpa [selectUser, heq] using h
  · rcases hid with h1 | h1
    · exact absurd h1 heq
    · have h2 : StateWF (f.state.userSelect id) := ⟨h.1, Or.inr h1, h.2.2⟩
      have h3 := stateWF_refreshUser { f with state := f.state.userSelect id } pr h2 hpr
      simpa [selectUser, heq] using h3

theorem keysOf_map_setProfileEntry (m : List (String × UserProfile))
    (userId pid : String) :
    keysOf (m.map (setProfileEntry userId pid)) = keysOf m := by
  induction m with
  | nil => rfl
  | cons p m ih =>
    simp only [List.map_cons, keysOf] at ih ⊢
    by_cases hpk : p.1 = userId
    · simpa [setProfileEntry, hpk] using ih
    · simpa [setProfileEntry, hpk] using ih

theorem lookupKey_map_setProfileEntry (m : List (String × UserProfile))
    (userId pid x : String) :
    (lookupKey (m.map (setProfileEntry userId pid)) x).isSome =
      (lookupKey m x).isSome := by
  induction m with
  | nil => rfl
  | cons p m ih =>
    by_cases hpk : p.1 = userId
    · by_cases hpx : p.1 = x
      · have hux : userId = x := hpk.symm.trans hpx
        simp [setProfileEntry, lookupKey, hpk, hpx, hux]
      · have hux : ¬ (userId = x) := fun hh => hpx (hpk.trans hh)
        have hxu : ¬ (x = userId) := fun hh => hux hh.symm
        simp [setProfileEntry, lookupKey, hpk, hpx, hux, hxu, ih]
    · by_cases hpx : p.1 = x
      · have hxu : ¬ (x = userId) := fun hh => hpk (hpx.trans hh)
        have hux : ¬ (userId = x) := fun hh => hxu hh.symm
        simp [setProfileEntry, lookupKey, hpk, hpx, hux, hxu]
      · simp [setProfileEntry, lookupKey, hpk, hpx, ih]

theorem wf_map_setProfileEntry (m : List (String × UserProfile))
    (userId pid : String) (hnd : (keysOf m).Nodup)
    (hwf : ∀ pr ∈ m, wellFormedUser pr.2)
    (hok : ∀ u, lookupKey m userId = some u → (lookupKey u.profiles pid).isSome) :
    ∀ pr ∈ m.map (setProfileEntry userId pid), wellFormedUser pr.2 := by
  intro pr hpr
  rcases List.mem_map.1 hpr with ⟨q, hq, rfl⟩
  unfold setProfileEntry
  by_cases hqk : q.1 = userId
  · simp only [if_pos hqk]
    have hlq := lookup_of_mem_of_nodup m hnd q hq
    rw [hqk] at hlq
    exact Or.inr (hok q.2 hlq)
  · simp only [if_neg hqk]
    exact hwf q hq

theorem stateWF_selectGameProfile (f : FullState) (pid : String)
    (h : StateWF f.state)
    (hok : ∀ u, f.state.user = some u → (lookupKey u.profiles pid).isSome) :
    StateWF (selectGameProfile f pid).state := by
  rcases hu : f.state.user with _ | u
  · simpa [selectGameProfile, hu] using h
  · obtain ⟨hnd, hsel, hwf⟩ := h
    have hok2 : ∀ v, lookupKey f.state.users f.state.selectedUser = some v →
        (lookupKey v.profiles pid).isSome := by
      intro v hv
      exact hok v (by simpa [UserState.user] using hv)
    simp only [selectGameProfile, hu, UserState.userGameProfileSelect]
    refine ⟨?_, ?_, wf_map_setProfileEntry f.state.users f.state.selectedUser pid hnd hwf hok2⟩
    · rw [keysOf_map_setProfileEntry]
      exact hnd
    · rcases hsel with h1 | h1
      · exact Or.inl h1
      · refine Or.inr ?_
        rw [lookupKey_map_setProfileEntry]
        exact h1

theorem stateWF_removeUserProfile (s : UserState) (id : String)
    (h : StateWF s)
    (hok : s.selectedUser = id →
      match (s.users.map Prod.snd).find? (fun u => u.selectedProfile ≠ "") with
      | none => False
      | some u => u.id ≠ id ∧ (lookupKey s.users u.id).isSome) :
    StateWF (removeUserProfile s id) := by
  obtain ⟨hnd, hsel, hwf⟩ := h
  by_cases heq : s.selectedUser = id
  · have hok2 := hok heq
    rcases hfind : (s.users.map Prod.snd).find? (fun u => u.selectedProfile ≠ "") with _ | u
    · rw [hfind] at hok2
      exact absurd hok2 not_false
    · rw [hfind] at hok2
      obtain ⟨hne, hsome⟩ := hok2
      simp only [removeUserProfile, if_pos heq, hfind, UserState.userSelect,
        UserState.userProfileRemove]
      refine ⟨nodup_keysOf_removeKey _ _ hnd, Or.inr ?_, ?_⟩
      · rw [lookupKey_removeKey_ne s.users id u.id hne]
        exact hsome
      · intro pr hpr
        exact hwf pr (mem_removeKey _ _ pr hpr)
  · simp only [removeUserProfile, if_neg heq, UserState.userProfileRemove]
    refine ⟨nodup_keysOf_removeKey _ _ hnd, ?_, ?_⟩
    · rcases hsel with h1 | h1
      · exact Or.inl h1
      · refine Or.inr ?_
        rw [lookupKey_removeKey_ne s.users id s.selectedUser heq]
        exact h1
    · intro pr hpr
      exact hwf pr (mem_removeKey _ _ pr hpr)

theorem stateWF_uploadSkin (f : FullState) (o : UploadSkinOptions)
    (pr : SetSkinCall → Except JsError UserProfile)
    (h : StateWF f.state) (hpr : ∀ c, okRes (pr c)) :
    StateWF (uploadSkin f o pr).2.1.state := by
  rcases h1 : lookupKey f.state.users (o.userId.getD f.state.selectedUser) with _ | user
  · simpa [uploadSkin, h1] using h
  · rcases h2 : lookupKey user.profiles (resolveProfileKey o user) with _ | gp
    · simpa [uploadSkin, h1, h2] using h
    · rcases h3 : pr { user := user, gameProfile := gp, options := normalizeSkin o } with e | data
      · simpa [uploadSkin, h1, h2, h3] using h
      · have hwf : wellFormedUser data := by
          have h4 := hpr { user := user, gameProfile := gp, options := normalizeSkin o }
          rwa [h3] at h4
        simpa [uploadSkin, h1, h2, h3] using stateWF_userProfile f.state data h hwf

theorem stateWF_applyOp (f : FullState) (op : UserOp)
    (h : StateWF f.state) (hok : okOp f op) : StateWF (applyOp f op).state := by
  cases op with
  | login res => exact stateWF_login f res h hok
  | refreshUser pr => exact stateWF_refreshUser f pr h hok
  | selectUser id pr => exact stateWF_selectUser f id pr h hok.1 hok.2
  | selectGameProfile pid => exact stateWF_selectGameProfile f pid h hok
  | removeUserProfile id => exact stateWF_removeUserProfile f.state id h hok
  | uploadSkin o pr => exact stateWF_uploadSkin f o pr h hok

/-! ## Claim theorems -/

/-- Claim C1 (amended).  The selection invariant — selectedUser.id is the
empty string or a key of users, and every stored selectedProfile is the
empty string or a key of the profiles of its account — is preserved by
every sequence of public operations (login, selectUser, selectGameProfile,
removeUserProfile, refreshUser, uploadSkin) from a well-formed state with
unique account keys, provided each operation satisfies its side condition
(okOp): provider results are well-formed accounts, selectUser targets the
current or a stored account id, selectGameProfile is called with a profile
id owned by the selected account, and removeUserProfile of the selected
account finds a first account with non-empty selectedProfile that is a
different, stored account.  Unguarded, the public operations violate the
invariant (see the counterexample theorem). -/
theorem selection_invariant (f : FullState) (ops : List UserOp)
    (h : StateWF f.state) (hok : AllOk f ops) :
    StateWF (runOps f ops).state ∧ SelInv (runOps f ops).state := by
  induction ops generalizing f with
  | nil => exact ⟨h, h.2⟩
  | cons o os ih =>
    have h1 : okOp f o := hok.1
    have h2 : AllOk (applyOp f o) os := hok.2
    exact ih (applyOp f o) (stateWF_applyOp f o h h1) h2

theorem selection_invariant_witness :
    StateWF initFullState.state ∧
    AllOk initFullState [UserOp.login (.ok demoWFUser)] ∧
    (StateWF (runOps initFullState [UserOp.login (.ok demoWFUser)]).state ∧
     SelInv (runOps initFullState [UserOp.login (.ok demoWFUser)]).state) :=
  ⟨by decide, ⟨show wellFormedUser demoWFUser by decide, trivial⟩,
    selection_invariant initFullState [UserOp.login (.ok demoWFUser)]
      (by decide) ⟨show wellFormedUser demoWFUser by decide, trivial⟩⟩

/-- Counterexample to claim C1 as stated: from the empty state, log in an
account "A" whose selectedProfile is empty (a well-formed provider
result), then removeUserProfile "A".  The re-selection loop finds no
account with a non-empty selectedProfile and leaves the selection at "A",
so after the deletion selectedUser.id = "A" is neither empty nor a key of
the now-empty accounts record. -/
theorem selection_invariant_counterexample :
    SelInv initFullState.state ∧
    ¬ SelInv (runOps initFullState
        [UserOp.login (.ok cexLoginUser), UserOp.removeUserProfile "A"]).state := by
  decide

/-- Claim C2 (amended).  With exactly two stored accounts A (selected,
stored first) and B, removeUserProfile("A") deletes A, and the resulting
selection is: A itself (left dangling) when A has a non-empty
selectedProfile — the re-selection search of the source scans
Object.values(users) including the account being removed — otherwise B
when B has a non-empty selectedProfile, otherwise the selection stays at
the removed id A.  The selection never becomes the empty string. -/
theorem removeUserProfile_two_accounts (s : UserState) (A B : String)
    (uA uB : UserProfile) (hAB : A ≠ B)
    (husers : s.users = [(A, uA), (B, uB)]) (hsel : s.selectedUser = A)
    (hidA : uA.id = A) (hidB : uB.id = B) :
    (removeUserProfile s A).users = [(B, uB)] ∧
    (removeUserProfile s A).selectedUser =
      (if uA.selectedProfile = "" then
        (if uB.selectedProfile = "" then A else B) else A) := by
  have hBA : ¬ (B = A) := fun h2 => hAB h2.symm
  by_cases ha : uA.selectedProfile = ""
  · by_cases hb : uB.selectedProfile = ""
    · simp [removeUserProfile, husers, hsel, ha, hb, UserState.userProfileRemove,
        UserState.userSelect, removeKey, hBA, List.find?]
    · simp [removeUserProfile, husers, hsel, ha, hb, hidB, UserState.userProfileRemove,
        UserState.userSelect, removeKey, hBA, List.find?]
  · simp [removeUserProfile, husers, hsel, ha, hidA, UserState.userProfileRemove,
      UserState.userSelect, removeKey, hBA, List.find?]

theorem removeUserProfile_two_accounts_witness :
    (removeUserProfile wC2State "A").users = [("B", wUB)] ∧
    (removeUserProfile wC2State "A").selectedUser =
      (if wUA.selectedProfile = "" then
        (if wUB.selectedProfile = "" then "A" else "B") else "A") :=
  removeUserProfile_two_accounts wC2State "A" "B" wUA wUB
    (by decide) rfl rfl rfl rfl

/-- Counterexample to claim C2 as stated: two accounts A (selected) and B,
B with an empty selectedProfile — the claim predicts the selection becomes
the empty string after removeUserProfile("A"); the code leaves the
selection at the deleted id "A", which is no longer a key of the accounts
record. -/
theorem removeUserProfile_counterexample :
    (removeUserProfile cexC2State "A").selectedUser = "A" ∧
    ¬ (removeUserProfile cexC2State "A").selectedUser = "" ∧
    lookupKey (removeUserProfile cexC2State "A").users "A" = none := by
  decide

/-- Claim C3.  When the provider login call fails with the
cancellation-kind error (the abort signal fired before it resolved), login
rejects with exactly that error, the SessionState after the call is equal
to the SessionState before it — no account entry is created or replaced
and the selection is unchanged — and the login controller slot is
cleared. -/
theorem login_cancellation_no_partial_state (f : FullState) :
    (login f (.error JsError.aborted)).1 = .error JsError.aborted ∧
    (login f (.error JsError.aborted)).2.state = f.state ∧
    (login f (.error JsError.aborted)).2.ctrl.loginController = none := by
  exact ⟨rfl, rfl, rfl⟩

/-- Counterexample to claim C4 as stated: the UserService class declares
no abortSkinUpload operation — the setSkinController slot assigned by
uploadSkin has no public abort method, so the claimed third abort
operation does not exist. -/
theorem abortSkinUpload_absent : ¬ ("abortSkinUpload" ∈ userServiceMethods) := by
  decide

/-- Claim C4 (amended).  The public operations abortLogin() and
abortRefresh() exist on UserService and signal the cancellation controller
of their category: when no controller of the category is assigned (no
operation in flight) the call returns normally with no state change at
all, and when a controller is assigned it is signalled while the session
state and the other controller slots are untouched.  No abortSkinUpload
operation exists. -/
theorem abort_operations (f : FullState) :
    ("abortLogin" ∈ userServiceMethods ∧ "abortRefresh" ∈ userServiceMethods) ∧
    (f.ctrl.loginController = none → abortLogin f = f) ∧
    (f.ctrl.refreshController = none → abortRefresh f = f) ∧
    (∀ b, f.ctrl.loginController = some b →
      abortLogin f = { f with ctrl := { f.ctrl with loginController := some true } }) ∧
    (∀ b, f.ctrl.refreshController = some b →
      abortRefresh f = { f with ctrl := { f.ctrl with refreshController := some true } }) := by
  refine ⟨⟨by decide, by decide⟩, ?_, ?_, ?_, ?_⟩
  · intro h; simp [abortLogin, h]
  · intro h; simp [abortRefresh, h]
  · intro b h; simp [abortLogin, h]
  · intro b h; simp [abortRefresh, h]

theorem abort_operations_witness :
    abortLogin initFullState = initFullState ∧
    abortRefresh initFullState = initFullState :=
  ⟨(abort_operations initFullState).2.1 rfl,
   (abort_operations initFullState).2.2.1 rfl⟩

/-- Claim C6.  selectUser(id) is a no-op returning normally without any
state change or provider call when id is already the selected account id;
otherwise it sets the selection to id and performs a full refreshUser
before returning: when an account u is stored under id and its provider
refresh succeeds with profile p, the call returns normally, the selection
is id, the refresh provider was invoked on u, and (the provider preserving
the account id) the caller observes the refreshed profile p stored under
id. -/
theorem selectUser_spec (f : FullState) (userId : String)
    (provider : UserProfile → Except JsError UserProfile) :
    (userId = f.state.selectedUser →
      selectUser f userId provider = (.ok (), f, none)) ∧
    (∀ u p, userId ≠ f.state.selectedUser →
      lookupKey f.state.users userId = some u → provider u = .ok p →
      (selectUser f userId provider).1 = .ok () ∧
      (selectUser f userId provider).2.1.state.selectedUser = userId ∧
      (selectUser f userId provider).2.2 = some u ∧
      (p.id = userId →
        lookupKey (selectUser f userId provider).2.1.state.users userId = some p)) := by
  constructor
  · intro h
    simp [selectUser, h]
  · intro u p hne hu hp
    have hu2 : ({ f with state := f.state.userSelect userId } : FullState).state.user = some u := by
      simp [UserState.user, UserState.userSelect, hu]
    simp only [selectUser, if_neg hne, refreshUser, hu2, hp]
    refine ⟨by trivial, by trivial, by trivial, ?_⟩
    intro hpid
    simp only [UserState.userProfile, UserState.userSelect]
    rw [← hpid]
    exact lookupKey_setKey_self _ _ _

theorem selectUser_spec_witness :
    (selectUser c6State "X" Except.ok).1 = .ok () ∧
    (selectUser c6State "X" Except.ok).2.1.state.selectedUser = "X" ∧
    (selectUser c6State "X" Except.ok).2.2 = some c7User ∧
    lookupKey (selectUser c6State "X" Except.ok).2.1.state.users "X" = some c7User := by
  obtain ⟨h1, h2, h3, h4⟩ :=
    (selectUser_spec c6State "X" Except.ok).2 c7User c7User (by decide) rfl rfl
  exact ⟨h1, h2, h3, h4 rfl⟩

theorem getPhase_setPhase_ne (s : LoginSys) (i j : Fin 2) (ph : TaskPhase)
    (h : j ≠ i) : getPhase (setPhase s i ph) j = getPhase s j := by
  fin_cases i <;> fin_cases j <;> simp_all [getPhase, setPhase]

theorem applied_setPhase (s : LoginSys) (i : Fin 2) (ph : TaskPhase) :
    (setPhase s i ph).applied = s.applied := by
  unfold setPhase
  by_cases h : i = 0 <;> simp [h]

theorem getPhase_acquireState (s : LoginSys) (i j : Fin 2) (h : j ≠ i) :
    getPhase (acquireState s i) j = getPhase s j :=
  getPhase_setPhase_ne s i j TaskPhase.calling h

theorem getPhase_completeState (s : LoginSys) (i j : Fin 2) (h : j ≠ i) :
    getPhase (completeState s i) j = getPhase s j :=
  getPhase_setPhase_ne s i j TaskPhase.done h

theorem getPhase_setPhase_self (s : LoginSys) (i : Fin 2) (ph : TaskPhase) :
    getPhase (setPhase s i ph) i = ph := by
  unfold getPhase setPhase
  by_cases h : i = 0 <;> simp [h]

theorem loginInv_step (s s2 : LoginSys) (h : LoginInv s) (hs : LoginStep s s2) :
    LoginInv s2 := by
  obtain ⟨h1, h2⟩ := h
  cases hs with
  | acquire i hlock hidle =>
    constructor
    · intro j hj
      by_cases hji : j = i
      · subst hji; rfl
      · rw [getPhase_acquireState s i j hji] at hj
        have h3 := h1 j hj
        rw [hlock] at h3
        exact absurd h3 (by simp)
    · intro j hj
      show j ∈ (setPhase s i TaskPhase.calling).applied
      rw [applied_setPhase]
      by_cases hji : j = i
      · subst hji
        have he : getPhase (acquireState s j) j = TaskPhase.calling :=
          getPhase_setPhase_self s j TaskPhase.calling
        rw [he] at hj
        exact absurd hj (by simp)
      · rw [getPhase_acquireState s i j hji] at hj
        exact h2 j hj
  | complete i hlock hcall =>
    constructor
    · intro j hj
      by_cases hji : j = i
      · subst hji
        have he : getPhase (completeState s j) j = TaskPhase.done :=
          getPhase_setPhase_self s j TaskPhase.done
        rw [he] at hj
        exact absurd hj (by simp)
      · rw [getPhase_completeState s i j hji] at hj
        have h3 := h1 j hj
        rw [hlock] at h3
        exact absurd (Option.some.inj h3).symm hji
    · intro j hj
      show j ∈ s.applied ++ [i]
      by_cases hji : j = i
      · subst hji
        exact List.mem_append_right _ (List.mem_singleton_self j)
      · rw [getPhase_completeState s i j hji] at hj
        exact List.mem_append_left _ (h2 j hj)

theorem loginInv_of_reachable (s : LoginSys) (h : LoginReachable s) : LoginInv s := by
  induction h with
  | refl =>
    constructor
    · intro i hi
      fin_cases i <;> simp [getPhase, loginInit] at hi
    · intro i hi
      fin_cases i <;> simp [getPhase, loginInit] at hi
  | tail hab hbc ih =>
    exact loginInv_step _ _ ih hbc

/-- Claim C8.  In every reachable interleaving of two concurrent login
calls under the login lock, at most one provider login invocation is in
flight at a time, and while one call is mid-provider-invocation the
Account mutations of every completed call have already been applied to
the session state. -/
theorem login_mutual_exclusion (s : LoginSys) (h : LoginReachable s) :
    ¬ (getPhase s 0 = .calling ∧ getPhase s 1 = .calling) ∧
    (∀ i j : Fin 2, getPhase s i = .calling → getPhase s j = .done →
      j ∈ s.applied) := by
  have hinv := loginInv_of_reachable s h
  constructor
  · rintro ⟨h0, h1⟩
    have e0 := hinv.1 0 h0
    have e1 := hinv.1 1 h1
    rw [e0] at e1
    exact absurd (Option.some.inj e1) (by decide)
  · intro i j hi hj
    exact hinv.2 j hj

theorem login_mutual_exclusion_witness :
    ¬ (getPhase loginMid 0 = .calling ∧ getPhase loginMid 1 = .calling) ∧
    (∀ i j : Fin 2, getPhase loginMid i = .calling → getPhase loginMid j = .done →
      j ∈ loginMid.applied) :=
  login_mutual_exclusion loginMid
    (Relation.ReflTransGen.single (LoginStep.acquire loginInit 0 rfl rfl))

theorem migrateLoop_skip (fs : List (String × String)) (path : String)
    (copyOk : String → Bool) (l1 l2 : List String)
    (h : ∀ q ∈ l1, ¬ FsCopyable fs copyOk q) :
    migrateLoop fs path copyOk (l1 ++ l2) = migrateLoop fs path copyOk l2 := by
  induction l1 with
  | nil => rfl
  | cons p l1 ih =>
    have hp := h p (List.mem_cons_self p l1)
    rcases hcp : lookupKey fs p with _ | content
    · simp only [List.cons_append, migrateLoop, hcp]
      exact ih (fun q hq => h q (List.mem_cons_of_mem p hq))
    · have hok : ¬ (copyOk p = true) := fun hc => hp ⟨by simp [hcp], hc⟩
      simp only [List.cons_append, migrateLoop, hcp, if_neg hok]
      exact ih (fun q hq => h q (List.mem_cons_of_mem p hq))

theorem migrateLoop_none (fs : List (String × String)) (path : String)
    (copyOk : String → Bool) (l : List String)
    (h : ∀ q ∈ l, ¬ FsCopyable fs copyOk q) :
    migrateLoop fs path copyOk l = fs := by
  have h2 := migrateLoop_skip fs path copyOk l [] h
  rw [List.append_nil] at h2
  exact h2

theorem migrateLoop_result (fs : List (String × String)) (path : String)
    (copyOk : String → Bool) (l : List String) :
    migrateLoop fs path copyOk l = fs ∨
    ∃ c, migrateLoop fs path copyOk l = setKey fs path c := by
  induction l with
  | nil => exact Or.inl rfl
  | cons p l ih =>
    rcases hcp : lookupKey fs p with _ | content
    · simpa [migrateLoop, hcp] using ih
    · by_cases hok : copyOk p = true
      · exact Or.inr ⟨content, by simp [migrateLoop, hcp, hok]⟩
      · simpa [migrateLoop, hcp, hok] using ih

/-- Claim C5.  createSafeFile.read: when the primary path is missing the
legacy paths are tried in order and the first one that can be copied is
copied to the primary path, a failed copy being swallowed (clause b); a
file still missing after migration is decoded from the empty buffer
rather than raising (clause c, and the read is total by type); the
migration runs at most once — a second read, the primary path now
present, returns the same content and leaves the file system untouched
(clauses a and e); and no path other than the primary one, in particular
no legacy source, is ever written or deleted (clause d). -/
theorem safeFileRead_spec {T : Type} (deserialize : String → T)
    (fs : List (String × String)) (path : String) (legacy : List String)
    (copyOk : String → Bool) :
    ((lookupKey fs path).isSome →
      safeFileRead fs path legacy copyOk deserialize
        = (deserialize ((lookupKey fs path).getD ""), fs)) ∧
    (∀ l1 p l2, legacy = l1 ++ p :: l2 → lookupKey fs path = none →
      (∀ q ∈ l1, ¬ FsCopyable fs copyOk q) → FsCopyable fs copyOk p →
      (safeFileRead fs path legacy copyOk deserialize).2
        = setKey fs path ((lookupKey fs p).getD "") ∧
      (safeFileRead fs path legacy copyOk deserialize).1
        = deserialize ((lookupKey fs p).getD "")) ∧
    (lookupKey fs path = none → (∀ q ∈ legacy, ¬ FsCopyable fs copyOk q) →
      safeFileRead fs path legacy copyOk deserialize = (deserialize "", fs)) ∧
    (∀ q, q ≠ path →
      lookupKey (safeFileRead fs path legacy copyOk deserialize).2 q = lookupKey fs q) ∧
    ((lookupKey (safeFileRead fs path legacy copyOk deserialize).2 path).isSome →
      safeFileRead (safeFileRead fs path legacy copyOk deserialize).2 path legacy copyOk
          deserialize
        = ((safeFileRead fs path legacy copyOk deserialize).1,
           (safeFileRead fs path legacy copyOk deserialize).2)) := by
  refine ⟨?_, ?_, ?_, ?_, ?_⟩
  · intro h
    simp [safeFileRead, safeFileReadFs, h]
  · intro l1 p l2 hleg hnone hskip hcp
    obtain ⟨hsome, hok⟩ := hcp
    rcases hlp : lookupKey fs p with _ | content
    · rw [hlp] at hsome
      exact absurd hsome (by simp)
    · have hfs2 : safeFileReadFs fs path legacy copyOk = setKey fs path content := by
        rw [safeFileReadFs, hnone]
        simp only [Option.isSome_none, Bool.false_eq_true, if_false]
        rw [hleg, migrateLoop_skip fs path copyOk l1 (p :: l2) hskip]
        simp [migrateLoop, hlp, hok]
      constructor
      · simp [safeFileRead, hfs2, hlp]
      · simp [safeFileRead, hfs2, hlp, lookupKey_setKey_self]
  · intro hnone hall
    have hfs2 : safeFileReadFs fs path legacy copyOk = fs := by
      rw [safeFileReadFs, hnone]
      simp only [Option.isSome_none, Bool.false_eq_true, if_false]
      exact migrateLoop_none fs path copyOk legacy hall
    simp [safeFileRead, hfs2, hnone]
  · intro q hq
    show lookupKey (safeFileReadFs fs path legacy copyOk) q = lookupKey fs q
    rw [safeFileReadFs]
    by_cases h : (lookupKey fs path).isSome
    · simp [h]
    · simp only [h, Bool.false_eq_true, if_false]
      rcases migrateLoop_result fs path copyOk legacy with h2 | ⟨c, h2⟩
      · rw [h2]
      · rw [h2, lookupKey_setKey_ne fs path q c hq]
  · intro h
    simp only [safeFileRead] at h ⊢
    have hfs3 : safeFileReadFs (safeFileReadFs fs path legacy copyOk) path legacy copyOk
        = safeFileReadFs fs path legacy copyOk := by
      rw [safeFileReadFs]
      simp only [h, if_true]
    rw [hfs3]

theorem safeFileRead_spec_witness :
    (safeFileRead [("old/user.json", "LEGACY")] "user.json"
        ["missing.json", "old/user.json"] (fun _ => true) (fun s : String => s)).2
      = setKey [("old/user.json", "LEGACY")] "user.json"
          ((lookupKey [("old/user.json", "LEGACY")] "old/user.json").getD "") ∧
    (safeFileRead [("old/user.json", "LEGACY")] "user.json"
        ["missing.json", "old/user.json"] (fun _ => true) (fun s : String => s)).1
      = ((lookupKey [("old/user.json", "LEGACY")] "old/user.json").getD "") :=
  (safeFileRead_spec (fun s : String => s) [("old/user.json", "LEGACY")] "user.json"
      ["missing.json", "old/user.json"] (fun _ => true)).2.1
    ["missing.json"] "old/user.json" [] rfl (by decide) (by decide) (by decide)

/-- Claim C9.  uploadSkin performs no validation that the resolved user
exists: whenever the resolved user id (options.userId, defaulting to the
selected account id) is not a key of the users record — for example no
account selected and no userId given — the call fails with the TypeError
raised by dereferencing undefined at user.profiles, before any provider
invocation and without any state change. -/
theorem uploadSkin_missing_user (f : FullState) (o : UploadSkinOptions)
    (provider : SetSkinCall → Except JsError UserProfile)
    (h : lookupKey f.state.users (o.userId.getD f.state.selectedUser) = none) :
    uploadSkin f o provider =
      (.error (.typeError "Cannot read properties of undefined (reading profiles)"),
       f, none) := by
  simp [uploadSkin, h]

theorem uploadSkin_missing_user_witness :
    uploadSkin initFullState c7OptsEmpty constProvider =
      (.error (.typeError "Cannot read properties of undefined (reading profiles)"),
       initFullState, none) :=
  uploadSkin_missing_user initFullState c7OptsEmpty constProvider (by decide)

/-- Claim C10.  getLogContent never raises: a failing read, a failing
gunzip of a .gz log, or a failing decode all produce the empty string
(the encoding guess failure is already absorbed by resolveEncoding and by
type the function is total); getCrashReportContent by contrast propagates
read and gunzip failures to the caller unchanged. -/
theorem logContent_error_handling (io : LogIO) (isAbsolute : String → Bool)
    (root name : String) :
    (∀ e, io.readFile (root ++ "/logs/" ++ name) = .error e →
      getLogContent io root name = "") ∧
    (∀ b e, io.readFile (root ++ "/logs/" ++ name) = .ok b →
      name.endsWith ".gz" = true → io.gunzip b = .error e →
      getLogContent io root name = "") ∧
    (∀ b2 e, readLogBuffer io (root ++ "/logs/" ++ name) (name.endsWith ".gz") = .ok b2 →
      io.decode b2 (resolveEncoding io b2) = .error e →
      getLogContent io root name = "") ∧
    (∀ e, io.readFile (if isAbsolute name then name
        else root ++ "/crash-reports/" ++ name).trim = .error e →
      getCrashReportContent io isAbsolute root name = .error e) ∧
    (∀ b e, io.readFile (if isAbsolute name then name
        else root ++ "/crash-reports/" ++ name).trim = .ok b →
      name.endsWith ".gz" = true → io.gunzip b = .error e →
      getCrashReportContent io isAbsolute root name = .error e) := by
  refine ⟨?_, ?_, ?_, ?_, ?_⟩
  · intro e h
    simp [getLogContent, readLogBuffer, h]
  · intro b e h1 h2 h3
    simp [getLogContent, readLogBuffer, h1, h2, h3]
  · intro b2 e h1 h2
    simp [getLogContent, h1, h2]
  · intro e h
    simp [getCrashReportContent, readLogBuffer, h]
  · intro b e h1 h2 h3
    simp [getCrashReportContent, readLogBuffer, h1, h2, h3]

theorem logContent_error_handling_witness :
    getLogContent failingReadIO "/instance" "latest.log" = "" ∧
    getCrashReportContent failingReadIO (fun _ => false) "/instance" "crash.txt"
      = .error (.provider "ENOENT") :=
  ⟨(logContent_error_handling failingReadIO (fun _ => false) "/instance" "latest.log").1
      (.provider "ENOENT") rfl,
   (logContent_error_handling failingReadIO (fun _ => false) "/instance" "crash.txt").2.2.2.1
      (.provider "ENOENT") rfl⟩

/-- Evaluation of uploadSkin once the user and game profile resolve. -/
theorem uploadSkin_resolved (f : FullState) (o : UploadSkinOptions)
    (u : UserProfile) (gp : GameProfile)
    (g : SetSkinCall → Except JsError UserProfile)
    (hu : lookupKey f.state.users (o.userId.getD f.state.selectedUser) = some u)
    (hgp : lookupKey u.profiles (resolveProfileKey o u) = some gp) :
    uploadSkin f o g =
      (match g { user := u, gameProfile := gp, options := normalizeSkin o } with
       | .error e =>
          (Except.error e,
           { f with ctrl := { f.ctrl with setSkinController := none } },
           some { user := u, gameProfile := gp, options := normalizeSkin o })
       | .ok data =>
          (Except.ok (),
           { state := f.state.userProfile data,
             ctrl := { f.ctrl with setSkinController := none } },
           some { user := u, gameProfile := gp, options := normalizeSkin o })) := by
  rcases hr : g { user := u, gameProfile := gp, options := normalizeSkin o } with e | data
  · simp [uploadSkin, hu, hgp, hr]
  · simp [uploadSkin, hu, hgp, hr]

/-- Claim C7 (amended).  With account X selected and its selectedProfile a
non-empty profile key P stored in its profiles record, uploadSkin with
empty options resolves exactly the same user and the same game profile as
uploadSkin with explicit userId X and gameProfileId P, normalizes the
skin payload identically — a skin whose slim flag is missing (or not a
boolean) is given slim = false — and for every account system whose
setSkin result depends only on the resolved user, game profile and skin
payload, the two calls have the same outcome and the same post-state.
The raw options object forwarded to the provider still differs in its
userId / gameProfileId fields, so a provider reading those fields can
distinguish the two calls: the claim as stated, quantifying over every
provider, is refuted by the counterexample theorem. -/
theorem uploadSkin_default_resolution (f : FullState) (X P : String)
    (u : UserProfile) (gp : GameProfile) (sk : Option SkinPayload)
    (o1 o2 : UploadSkinOptions)
    (g : SetSkinCall → Except JsError UserProfile)
    (hsel : f.state.selectedUser = X)
    (hu : lookupKey f.state.users X = some u)
    (hP : u.selectedProfile = P) (hPne : P ≠ "")
    (hgp : lookupKey u.profiles P = some gp)
    (ho1 : o1 = { userId := none, gameProfileId := none, skin := sk })
    (ho2 : o2 = { userId := some X, gameProfileId := some P, skin := sk })
    (hg : ∀ c1 c2 : SetSkinCall, c1.user = c2.user → c1.gameProfile = c2.gameProfile →
      c1.options.skin = c2.options.skin → g c1 = g c2) :
    (uploadSkin f o1 g).1 = (uploadSkin f o2 g).1 ∧
    (uploadSkin f o1 g).2.1 = (uploadSkin f o2 g).2.1 ∧
    (uploadSkin f o1 g).2.2.map SetSkinCall.user
      = (uploadSkin f o2 g).2.2.map SetSkinCall.user ∧
    (uploadSkin f o1 g).2.2.map SetSkinCall.gameProfile
      = (uploadSkin f o2 g).2.2.map SetSkinCall.gameProfile ∧
    (∀ s, sk = some s → s.slim = none →
      (uploadSkin f o1 g).2.2.map (fun c => c.options.skin)
        = some (some { s with slim := some false })) := by
  subst ho1 ho2
  have hu1 : lookupKey f.state.users
      (({ userId := none, gameProfileId := none, skin := sk } :
        UploadSkinOptions).userId.getD f.state.selectedUser) = some u := by
    show lookupKey f.state.users f.state.selectedUser = some u
    rw [hsel]; exact hu
  have hu2 : lookupKey f.state.users
      (({ userId := some X, gameProfileId := some P, skin := sk } :
        UploadSkinOptions).userId.getD f.state.selectedUser) = some u := hu
  have hgp1 : lookupKey u.profiles
      (resolveProfileKey { userId := none, gameProfileId := none, skin := sk } u)
      = some gp := by
    show lookupKey u.profiles u.selectedProfile = some gp
    rw [hP]; exact hgp
  have hgp2 : lookupKey u.profiles
      (resolveProfileKey { userId := some X, gameProfileId := some P, skin := sk } u)
      = some gp := by
    show lookupKey u.profiles (if P = "" then u.selectedProfile else P) = some gp
    rw [if_neg hPne]; exact hgp
  have e1 := uploadSkin_resolved f
    { userId := none, gameProfileId := none, skin := sk } u gp g hu1 hgp1
  have e2 := uploadSkin_resolved f
    { userId := some X, gameProfileId := some P, skin := sk } u gp g hu2 hgp2
  have hskin : (normalizeSkin { userId := none, gameProfileId := none, skin := sk }).skin
      = (normalizeSkin { userId := some X, gameProfileId := some P, skin := sk }).skin := by
    cases sk <;> simp [normalizeSkin]
  have hgc :=
    hg { user := u, gameProfile := gp,
         options := normalizeSkin { userId := none, gameProfileId := none, skin := sk } }
       { user := u, gameProfile := gp,
         options := normalizeSkin { userId := some X, gameProfileId := some P, skin := sk } }
       rfl rfl hskin
  rw [e1, e2, hgc]
  rcases hr :
      g { user := u, gameProfile := gp,
          options := normalizeSkin { userId := some X, gameProfileId := some P, skin := sk } }
    with e | data
  · refine ⟨rfl, rfl, rfl, rfl, ?_⟩
    intro s hs hslim
    subst hs
    simp [normalizeSkin, hslim]
  · refine ⟨rfl, rfl, rfl, rfl, ?_⟩
    intro s hs hslim
    subst hs
    simp [normalizeSkin, hslim]

theorem uploadSkin_default_resolution_witness :
    (uploadSkin c7State
        { userId := none, gameProfileId := none, skin := some wSkinNoSlim } constProvider).1
      = (uploadSkin c7State
        { userId := some "X", gameProfileId := some "P", skin := some wSkinNoSlim }
        constProvider).1 ∧
    (uploadSkin c7State
        { userId := none, gameProfileId := none, skin := some wSkinNoSlim } constProvider).2.1
      = (uploadSkin c7State
        { userId := some "X", gameProfileId := some "P", skin := some wSkinNoSlim }
        constProvider).2.1 ∧
    (uploadSkin c7State
        { userId := none, gameProfileId := none, skin := some wSkinNoSlim }
        constProvider).2.2.map (fun c => c.options.skin)
      = some (some { wSkinNoSlim with slim := some false }) := by
  obtain ⟨h1, h2, h3, h4, h5⟩ := uploadSkin_default_resolution c7State "X" "P" c7User
    { id := "P", name := "Steve" } (some wSkinNoSlim)
    { userId := none, gameProfileId := none, skin := some wSkinNoSlim }
    { userId := some "X", gameProfileId := some "P", skin := some wSkinNoSlim }
    constProvider (by decide) (by decide) (by decide) (by decide) (by decide) rfl rfl
    (fun c1 c2 hh1 hh2 hh3 => rfl)
  exact ⟨h1, h2, h5 wSkinNoSlim rfl rfl⟩

/-- Counterexample to claim C7 as stated: uploadSkin forwards the original
options object to sys.setSkin, so an account system that reads
options.userId observes different arguments in uploadSkin({}) and in
uploadSkin({userId: X, gameProfileId: P}) — with such a system the two
calls produce different outcomes and post-states, refuting the claimed
behavioral identity for the same provider invocation. -/
theorem uploadSkin_default_resolution_counterexample :
    (uploadSkin c7State c7OptsEmpty c7Provider).2.1.state
      ≠ (uploadSkin c7State c7OptsExplicit c7Provider).2.1.state := by
  decide

end XMCL
